import Mathlib

set_option autoImplicit false

/-
Verification of Fix_Smart_CMS v1.0.4 (complaint-management web application).

The Lean definitions below are shallow embeddings of the JavaScript/TypeScript
source: JS `Date` values become `Int` millisecond timestamps, Prisma tables
become Lean lists of records, Express responses become records carrying the
HTTP status and the JSON payload (or just its key set, where only the shape of
the payload matters), and `Math.random`/`new Date()` effects become explicit
parameters.  Definitions named after source functions are translated from the
source; definitions whose names start with `spec` restate the prose
specification's wording for comparison.
-/

namespace FixSmartCMS

/- ## Complaint status lifecycle and SLA computation
   (seed scripts: src/unnamed/part_001 and src/unnamed/part_000) -/

/-- The six complaint statuses of the lifecycle. -/
inductive ComplaintStatus where
  | registered
  | assigned
  | inProgress
  | resolved
  | closed
  | reopened
deriving DecidableEq

/-- The four derived SLA statuses. -/
inductive SLAStatus where
  | completed
  | overdue
  | warning
  | onTime
deriving DecidableEq

/-- `addHours` from the seed script: shifts a millisecond timestamp by
`hours * 60 * 60 * 1000`. -/
def addHours (dateMs hours : Int) : Int :=
  dateMs + hours * 60 * 60 * 1000

/-- `calculateSLAStatus(submittedOn, deadline, resolvedOn, currentStatus)` from
the seed script.  The JS body reads the wall clock (`new Date()`), which is the
explicit `now` parameter here.  The JS computes
`daysRemaining = (deadline - now) / (1000*60*60*24)` as a float and compares it
with `0` and `1`; because the division is by a positive constant and both
operands are integer millisecond values, those comparisons are equivalent to
comparing the numerator `deadline - now` with `0` and with one day of
milliseconds, which is what is written here. -/
def calculateSLAStatus (submittedOn deadline : Int) (resolvedOn : Option Int)
    (currentStatus : ComplaintStatus) (now : Int) : SLAStatus :=
  if currentStatus = ComplaintStatus.resolved ∨ currentStatus = ComplaintStatus.closed then
    SLAStatus.completed
  else if deadline - now < 0 then SLAStatus.overdue
  else if deadline - now ≤ 1000 * 60 * 60 * 24 then SLAStatus.warning
  else SLAStatus.onTime

/-- The SLA-status rule as the specification words it: COMPLETED when the
status is RESOLVED or CLOSED, OVERDUE when the deadline is in the past,
WARNING when at most one day remains before the deadline, ON_TIME otherwise.
It mentions only the deadline, the current status and the current time. -/
def specSLAStatus (deadline : Int) (currentStatus : ComplaintStatus) (now : Int) : SLAStatus :=
  if currentStatus = ComplaintStatus.resolved ∨ currentStatus = ComplaintStatus.closed then
    SLAStatus.completed
  else if deadline < now then SLAStatus.overdue
  else if deadline ≤ now + 1000 * 60 * 60 * 24 then SLAStatus.warning
  else SLAStatus.onTime

/-- C1: `calculateSLAStatus` is a pure function of its arguments; the deadline
the seed passes is the submission time plus the type's SLA hours, and for every
input the result agrees with the specification's case analysis (COMPLETED for
RESOLVED/CLOSED, OVERDUE past the deadline, WARNING within one day of it,
ON_TIME otherwise).  Since `specSLAStatus` mentions only the deadline, the
status, and the current time, the result is determined by those alone - in
particular, equal inputs always yield equal results. -/
theorem calculateSLAStatus_matches_spec :
    (∀ submittedOn slaHours : Int,
        addHours submittedOn slaHours = submittedOn + slaHours * (60 * 60 * 1000)) ∧
    (∀ (submittedOn deadline : Int) (resolvedOn : Option Int)
        (st : ComplaintStatus) (now : Int),
        calculateSLAStatus submittedOn deadline resolvedOn st now =
          specSLAStatus deadline st now) := by
  constructor
  · intro s h
    unfold addHours
    ring
  · intro s dl r st now
    unfold calculateSLAStatus specSLAStatus
    split_ifs <;> first | rfl | omega

/- ## Validation middleware (src/server/middleware/validation.js) -/

/-- A single validation failure as express-validator reports it. -/
structure ValidationError where
  path : String
  msg : String
  value : String
deriving DecidableEq

/-- One entry of the formatted error list built by `handleValidationErrors`. -/
structure FormattedError where
  field : String
  message : String
  value : String
deriving DecidableEq

/-- The per-error formatting step of `handleValidationErrors`. -/
def formatValidationError (e : ValidationError) : FormattedError :=
  { field := e.path, message := e.msg, value := e.value }

/-- The 400 response body produced by `handleValidationErrors`. -/
structure ErrorResponse where
  status : Nat
  success : Bool
  message : String
  errors : List FormattedError
deriving DecidableEq

/-- `handleValidationErrors`: if the request accumulated validation errors,
respond 400 with the formatted list and stop; otherwise call `next()`
(modelled as `none`, handing control to the rest of the chain). -/
def handleValidationErrors (errors : List ValidationError) : Option ErrorResponse :=
  if errors.isEmpty then none
  else
    some { status := 400, success := false, message := "Validation failed",
           errors := errors.map formatValidationError }

/-- Outcome of running a validator chain: either the request was rejected by
`handleValidationErrors` (state untouched), or the controller ran. -/
inductive ChainOutcome (σ ρ : Type) where
  | rejected (state : σ) (resp : ErrorResponse)
  | handled (state : σ) (resp : ρ)
deriving DecidableEq

/-- A route whose validator chain ends in `handleValidationErrors` followed by
the controller: the controller (a state transformer returning a response) runs
only when the chain produced no error response. -/
def runValidatedRoute {σ ρ : Type} (errors : List ValidationError)
    (controller : σ → σ × ρ) (s : σ) : ChainOutcome σ ρ :=
  match handleValidationErrors errors with
  | some resp => ChainOutcome.rejected s resp
  | none => ChainOutcome.handled (controller s).1 (controller s).2

/-- C4: if any declared field validation fails, the response is HTTP 400 with
`success = false` and a structured error list in which each offending field's
name and message appear, and the controller never runs (the state is returned
unchanged); if all validations pass, control reaches the controller. -/
theorem validator_chain_gates_controller {σ ρ : Type} (errors : List ValidationError)
    (controller : σ → σ × ρ) (s : σ) :
    (errors ≠ [] →
        runValidatedRoute errors controller s =
          ChainOutcome.rejected s
            { status := 400, success := false, message := "Validation failed",
              errors := errors.map formatValidationError } ∧
        ∀ e ∈ errors,
          ({ field := e.path, message := e.msg, value := e.value } : FormattedError) ∈
            errors.map formatValidationError) ∧
    (errors = [] →
        runValidatedRoute errors controller s =
          ChainOutcome.handled (controller s).1 (controller s).2) := by
  constructor
  · intro hne
    have hemp : errors.isEmpty = false := by
      cases errors with
      | nil => exact absurd rfl hne
      | cons a l => rfl
    constructor
    · simp [runValidatedRoute, handleValidationErrors, hemp]
    · intro e he
      exact List.mem_map_of_mem formatValidationError he
  · intro heq
    subst heq
    rfl

/-- A concrete invalid-field error used to witness the validation theorem. -/
def c4err : ValidationError :=
  { path := "email", msg := "Please provide a valid email", value := "nope" }

/-- C4 witness: a request carrying one failing email validation is rejected
with the 400 envelope and the controller (here a counter increment) never runs. -/
theorem validator_chain_gates_controller_witness :
    ([c4err] ≠ ([] : List ValidationError)) ∧
    runValidatedRoute [c4err] (fun n : Nat => (n + 1, (0 : Nat))) 0 =
      ChainOutcome.rejected 0
        { status := 400, success := false, message := "Validation failed",
          errors := [c4err].map formatValidationError } :=
  ⟨List.cons_ne_nil _ _,
    ((validator_chain_gates_controller [c4err] (fun n : Nat => (n + 1, (0 : Nat))) 0).1
        (List.cons_ne_nil _ _)).1⟩

/- ## Guest file upload filter (src/server/routes/guestRoutes.js) -/

/-- ASCII lowercasing of a single character (what `toLowerCase` does on the
ASCII extensions involved here). -/
def asciiLower (c : Char) : Char :=
  if 'A' ≤ c ∧ c ≤ 'Z' then Char.ofNat (c.toNat + 32) else c

/-- ASCII lowercasing of a string. -/
def strLower (s : String) : String :=
  String.mk (s.data.map asciiLower)

/-- Does the character list begin with the given pattern? -/
def beginsWith : List Char → List Char → Bool
  | _, [] => true
  | [], _ :: _ => false
  | a :: as, b :: bs => a == b && beginsWith as bs

/-- Does the character list contain the given pattern as a contiguous
subsequence?  This is what an unanchored JS regex alternative matches. -/
def containsSeq : List Char → List Char → Bool
  | [], needle => needle.isEmpty
  | a :: t, needle => beginsWith (a :: t) needle || containsSeq t needle

/-- The alternatives of the `fileFilter` regex
`/jpeg|jpg|png|gif|pdf|doc|docx|txt/`. -/
def allowedTypeTokens : List String :=
  ["jpeg", "jpg", "png", "gif", "pdf", "doc", "docx", "txt"]

/-- `fileFilter` from the guest routes, as a predicate on the file's extension
(the source computes `fileExtension` from the original name via
`path.extname(...).toLowerCase().substring(1)` and then runs
`allowedTypes.test(fileExtension)`).  The regex has no anchors, so `.test`
succeeds whenever the extension merely CONTAINS one of the alternatives. -/
def fileFilter (fileExtension : String) : Bool :=
  allowedTypeTokens.any (fun t => containsSeq (strLower fileExtension).data t.data)

/-- The acceptance rule as the claim words it: the extension is accepted iff
it is one of the whitelisted extensions. -/
def specWhitelistAccept (fileExtension : String) : Bool :=
  allowedTypeTokens.contains (strLower fileExtension)

/-- The multer per-file size cap (10 MB), from the `upload` configuration. -/
def uploadFileSizeLimit : Nat := 10 * 1024 * 1024

/-- The multer per-request file-count cap, from the `upload` configuration. -/
def uploadMaxFiles : Nat := 5

/-- C7 counterexample: a file with extension `apng` is accepted by
`fileFilter` (the unanchored regex finds `png` inside it) although `apng` is
not in the whitelist, so acceptance is not equivalent to whitelist
membership. -/
theorem fileFilter_not_extension_whitelist :
    fileFilter "apng" = true ∧ specWhitelistAccept "apng" = false := by
  decide

/-- C7 (amended): an uploaded file is accepted iff its lowercased extension
contains one of jpeg/jpg/png/gif/pdf/doc/docx/txt as a substring (so every
whitelisted extension is accepted, but so are others such as `apng`), the
per-file size cap is 10 MB and at most 5 files are accepted per request. -/
theorem fileFilter_substring_semantics :
    (∀ t ∈ allowedTypeTokens, fileFilter t = true) ∧
    (∀ ext : String, fileFilter ext = true ↔
        ∃ t ∈ allowedTypeTokens, containsSeq (strLower ext).data t.data = true) ∧
    uploadFileSizeLimit = 10 * 1024 * 1024 ∧ uploadMaxFiles = 5 := by
  refine ⟨by decide, ?_, rfl, rfl⟩
  intro ext
  simp [fileFilter, List.any_eq_true]

/- ## Status-transition validation and the seeded status logs
   (src/server/middleware/validation.js and src/unnamed/part_000) -/

/-- The string name of each complaint status, as stored in the database. -/
def complaintStatusString : ComplaintStatus → String
  | ComplaintStatus.registered => "REGISTERED"
  | ComplaintStatus.assigned => "ASSIGNED"
  | ComplaintStatus.inProgress => "IN_PROGRESS"
  | ComplaintStatus.resolved => "RESOLVED"
  | ComplaintStatus.closed => "CLOSED"
  | ComplaintStatus.reopened => "REOPENED"

/-- The status values `validateComplaintUpdate` admits for the optional
`status` body field (an `isIn` membership check - nothing else). -/
def updateStatusAllowedValues : List String :=
  ["REGISTERED", "ASSIGNED", "IN_PROGRESS", "RESOLVED", "CLOSED", "REOPENED"]

/-- The `status` rule of `validateComplaintUpdate`: the submitted value passes
iff it is a member of the six-value enumeration. -/
def validateComplaintUpdateStatus (s : String) : Bool :=
  updateStatusAllowedValues.contains s

/-- One recorded status transition (`fromStatus`/`toStatus` of a StatusLog
row; the initial entry has no `fromStatus`). -/
structure StatusLogEntry where
  fromStatus : Option ComplaintStatus
  toStatus : ComplaintStatus
deriving DecidableEq

/-- The status logs the complaint seed script (part_000) records for each of
its complaints, in order: REGISTERED, then REGISTERED → IN_PROGRESS, then
IN_PROGRESS → RESOLVED. -/
def seedStatusLogs : List StatusLogEntry :=
  [ { fromStatus := none, toStatus := ComplaintStatus.registered },
    { fromStatus := some ComplaintStatus.registered, toStatus := ComplaintStatus.inProgress },
    { fromStatus := some ComplaintStatus.inProgress, toStatus := ComplaintStatus.resolved } ]

/-- The permitted transitions as the claim words them: the adjacent pairs of
REGISTERED → ASSIGNED → IN_PROGRESS → RESOLVED → CLOSED, plus (generously) any
transition into or out of REOPENED. -/
def specPermittedTransition : ComplaintStatus → ComplaintStatus → Bool
  | ComplaintStatus.registered, ComplaintStatus.assigned => true
  | ComplaintStatus.assigned, ComplaintStatus.inProgress => true
  | ComplaintStatus.inProgress, ComplaintStatus.resolved => true
  | ComplaintStatus.resolved, ComplaintStatus.closed => true
  | ComplaintStatus.reopened, _ => true
  | _, ComplaintStatus.reopened => true
  | _, _ => false

/-- The second status log of each seeded complaint: REGISTERED → IN_PROGRESS. -/
def seedSkipEntry : StatusLogEntry :=
  { fromStatus := some ComplaintStatus.registered, toStatus := ComplaintStatus.inProgress }

/-- C3 counterexample: the seed records a REGISTERED → IN_PROGRESS status log,
which skips ASSIGNED and is not one of the permitted adjacent pairs, so not
every recorded transition follows the claimed state machine. -/
theorem statusLog_skips_state_counterexample :
    ({ fromStatus := some ComplaintStatus.registered,
       toStatus := ComplaintStatus.inProgress } : StatusLogEntry) ∈ seedStatusLogs ∧
    specPermittedTransition ComplaintStatus.registered ComplaintStatus.inProgress = false := by
  decide

/-- C3 (amended): a status update request is validated only for membership in
the six-status enumeration {REGISTERED, ASSIGNED, IN_PROGRESS, RESOLVED,
CLOSED, REOPENED} - every lifecycle status passes the validator - and
adjacency is NOT enforced: the recorded seed logs contain a transition
(REGISTERED → IN_PROGRESS) that skips a state. -/
theorem statusUpdate_enum_membership_only :
    (∀ s : String, validateComplaintUpdateStatus s = true ↔ s ∈ updateStatusAllowedValues) ∧
    (∀ st : ComplaintStatus, validateComplaintUpdateStatus (complaintStatusString st) = true) ∧
    ¬ (∀ log ∈ seedStatusLogs, ∀ f, log.fromStatus = some f →
        specPermittedTransition f log.toStatus = true) := by
  refine ⟨?_, ?_, ?_⟩
  · intro s
    exact List.elem_iff
  · intro st
    cases st <;> decide
  · intro h
    exact absurd (h seedSkipEntry (by decide) ComplaintStatus.registered rfl) (by decide)

/- ## Response envelopes (src/unnamed/part_002 changePassword and
   src/server/routes/guestRoutes.js file serving) -/

/-- Is a JSON body the uniform `{success, message, data}` envelope?  It must
carry exactly those three fields. -/
def isUniformEnvelope (keys : List String) : Bool :=
  keys.contains "success" && keys.contains "message" && keys.contains "data" &&
    keys.length == 3

/-- The (HTTP status, JSON key set) of every response `changePassword` can
produce, in source order: missing fields, password mismatch, weak password
(an extra `errors` field), user not found, unverified account, wrong current
password, success. -/
def changePasswordResponses : List (Nat × List String) :=
  [ (400, ["status", "code", "message"]),
    (400, ["status", "code", "message"]),
    (400, ["status", "code", "message", "errors"]),
    (404, ["status", "code", "message"]),
    (400, ["status", "code", "message"]),
    (401, ["status", "code", "message"]),
    (200, ["status", "code", "message"]) ]

/-- The (HTTP status, JSON key set) of every response `verifyPasswordSetupOTP`
can produce, in source order: missing OTP code, user not found, deactivated
account, invalid/expired OTP, success. -/
def verifyPasswordSetupOTPResponses : List (Nat × List String) :=
  [ (400, ["success", "message", "data"]),
    (404, ["success", "message", "data"]),
    (400, ["success", "message", "data"]),
    (400, ["success", "message", "data"]),
    (200, ["success", "message", "data"]) ]

/-- What the guest file-serving route sends: either a JSON body (status and
key set) or the raw file via `res.sendFile`. -/
inductive FileServeOutcome where
  | jsonResp (status : Nat) (keys : List String)
  | sendFile (path : String)
deriving DecidableEq

/-- The `GET /files/:filename` handler from the guest routes: when the file
exists it streams the file itself (no JSON envelope); otherwise it sends a 404
JSON body whose only fields are `success` and `message`.  `fileFound` stands
for the `fs.existsSync` check. -/
def serveGuestFile (fileFound : Bool) (filePath : String) : FileServeOutcome :=
  if fileFound then FileServeOutcome.sendFile filePath
  else FileServeOutcome.jsonResp 404 ["success", "message"]

/-- C8 counterexample: the successful change-password response carries exactly
the fields status/code/message - not the `{success, message, data}` envelope -
and the file-serving route returns the raw file on success and a
`{success, message}` body without `data` on 404, so not every endpoint
response is the uniform envelope. -/
theorem changePassword_envelope_counterexample :
    (200, ["status", "code", "message"]) ∈ changePasswordResponses ∧
    isUniformEnvelope ["status", "code", "message"] = false ∧
    serveGuestFile true "report.pdf" = FileServeOutcome.sendFile "report.pdf" ∧
    serveGuestFile false "report.pdf" = FileServeOutcome.jsonResp 404 ["success", "message"] ∧
    isUniformEnvelope ["success", "message"] = false := by
  decide

/-- C8 (amended): endpoints such as `verifyPasswordSetupOTP` do return the
uniform `{success, message, data}` envelope on every path, but `changePassword`
answers every request with a `{status, code, message}` body (plus `errors` on
the weak-password path, never `success`/`data`), and the file-serving endpoint
streams the raw file on success and a `{success, message}` body without `data`
on 404. -/
theorem response_envelope_amended :
    (∀ r ∈ verifyPasswordSetupOTPResponses, isUniformEnvelope r.2 = true) ∧
    (∀ r ∈ changePasswordResponses,
        isUniformEnvelope r.2 = false ∧
        r.2.contains "status" = true ∧ r.2.contains "code" = true ∧
        r.2.contains "message" = true ∧ r.2.contains "success" = false ∧
        r.2.contains "data" = false) ∧
    (∀ p : String, serveGuestFile true p = FileServeOutcome.sendFile p) ∧
    (∀ p : String, serveGuestFile false p = FileServeOutcome.jsonResp 404 ["success", "message"]) := by
  refine ⟨by decide, by decide, ?_, ?_⟩
  · intro p
    rfl
  · intro p
    rfl

/- ## Password-setup OTP verification (src/unnamed/part_002) -/

/-- One row of the OTPSession table (fields used by the password-setup
flow). -/
structure OTPSession where
  id : Nat
  email : String
  otpCode : String
  purpose : String
  isVerified : Bool
  expiresAt : Int
  verifiedAt : Option Int
deriving DecidableEq

/-- The Prisma `findFirst` filter of `verifyPasswordSetupOTP`: same email,
same code, purpose PASSWORD_SETUP, not yet verified, expiry strictly in the
future. -/
def otpMatches (email otpCode : String) (now : Int) (s : OTPSession) : Bool :=
  s.email == email && s.otpCode == otpCode && s.purpose == "PASSWORD_SETUP" &&
    !s.isVerified && decide (now < s.expiresAt)

/-- The email/code/purpose part of the filter, with no freshness conditions. -/
def otpKey (email otpCode : String) (s : OTPSession) : Bool :=
  s.email == email && s.otpCode == otpCode && s.purpose == "PASSWORD_SETUP"

/-- The `isVerified := true, verifiedAt := now` update applied to the matched
session. -/
def markVerified (now : Int) (s : OTPSession) : OTPSession :=
  { s with isVerified := true, verifiedAt := some now }

/-- Result of `verifyPasswordSetupOTP`: whether the 200 success path was taken
(otherwise the 400 invalid-or-expired response) and the OTPSession table
afterwards. -/
structure OTPVerifyResult where
  success : Bool
  sessions : List OTPSession
deriving DecidableEq

/-- `verifyPasswordSetupOTP` for an active user: find the first OTP session
matching the submitted code that is unverified and unexpired; if none exists
answer 400 "Invalid or expired OTP", otherwise mark that session verified (the
Prisma update is by the session's unique id) and answer success. -/
def verifyPasswordSetupOTP (sessions : List OTPSession) (email otpCode : String)
    (now : Int) : OTPVerifyResult :=
  match sessions.find? (otpMatches email otpCode now) with
  | none => { success := false, sessions := sessions }
  | some sess =>
      { success := true,
        sessions := sessions.map (fun t => if t.id == sess.id then markVerified now t else t) }

/-- Unfolded meaning of a successful `otpMatches`. -/
theorem otpMatches_iff (email otpCode : String) (now : Int) (s : OTPSession) :
    otpMatches email otpCode now s = true ↔
      s.email = email ∧ s.otpCode = otpCode ∧ s.purpose = "PASSWORD_SETUP" ∧
        s.isVerified = false ∧ now < s.expiresAt := by
  simp [otpMatches, Bool.and_eq_true, Bool.not_eq_true', and_assoc]

/-- C2: a password-setup OTP verification succeeds exactly when some stored
session carries the submitted code for that email and purpose, is still
unverified, and expires strictly in the future; a success marks the matched
session's verified flag, and - as long as no other stored session carries the
same email, code and purpose - re-submitting the same code against the
resulting state fails with the invalid-or-expired response at every later (or
any other) time, so each session can be successfully verified at most once. -/
theorem verifyPasswordSetupOTP_single_use :
    (∀ (sessions : List OTPSession) (email code : String) (now : Int),
        (verifyPasswordSetupOTP sessions email code now).success = true ↔
          ∃ s ∈ sessions, s.email = email ∧ s.otpCode = code ∧
            s.purpose = "PASSWORD_SETUP" ∧ s.isVerified = false ∧ now < s.expiresAt) ∧
    (∀ (sessions : List OTPSession) (email code : String) (now now' : Int),
        (verifyPasswordSetupOTP sessions email code now).success = true →
        (∀ s ∈ sessions, ∀ t ∈ sessions,
            otpKey email code s = true → otpKey email code t = true → s.id = t.id) →
        (∃ s ∈ sessions, otpMatches email code now s = true ∧
            ∀ u ∈ (verifyPasswordSetupOTP sessions email code now).sessions,
              u.id = s.id → u.isVerified = true) ∧
        (verifyPasswordSetupOTP
            (verifyPasswordSetupOTP sessions email code now).sessions
            email code now').success = false) := by
  constructor
  · intro sessions email code now
    unfold verifyPasswordSetupOTP
    cases hfind : sessions.find? (otpMatches email code now) with
    | none =>
      simp only [Bool.false_eq_true, false_iff]
      rintro ⟨s, hs, h1, h2, h3, h4, h5⟩
      have := List.find?_eq_none.1 hfind s hs
      exact this ((otpMatches_iff email code now s).2 ⟨h1, h2, h3, h4, h5⟩)
    | some sess =>
      simp only [true_iff]
      exact ⟨sess, List.mem_of_find?_eq_some hfind,
        (otpMatches_iff email code now sess).1 (List.find?_some hfind)⟩
  · intro sessions email code now now' hsucc huniq
    cases hfind : sessions.find? (otpMatches email code now) with
    | none =>
      have hfalse : (verifyPasswordSetupOTP sessions email code now).success = false := by
        unfold verifyPasswordSetupOTP
        rw [hfind]
      rw [hfalse] at hsucc
      exact absurd hsucc (by simp)
    | some sess =>
      have hres : verifyPasswordSetupOTP sessions email code now =
          { success := true,
            sessions :=
              sessions.map (fun t => if t.id == sess.id then markVerified now t else t) } := by
        unfold verifyPasswordSetupOTP
        rw [hfind]
      rw [hres]
      have hsessMem : sess ∈ sessions := List.mem_of_find?_eq_some hfind
      have hsessMatch : otpMatches email code now sess = true := List.find?_some hfind
      constructor
      · refine ⟨sess, hsessMem, hsessMatch, ?_⟩
        intro u hu hid
        rcases List.mem_map.1 hu with ⟨t, ht, rfl⟩
        by_cases hteq : (t.id == sess.id) = true
        · simp only [hteq, if_pos]
          rfl
        · simp only [hteq] at hid ⊢
          rw [if_neg (by simp [hteq])] at hid ⊢
          exact absurd (beq_iff_eq.2 hid) (by simp [hteq])
      · have hnone : (sessions.map (fun t => if t.id == sess.id then markVerified now t else t)).find?
            (otpMatches email code now') = none := by
          apply List.find?_eq_none.2
          intro u hu
          rcases List.mem_map.1 hu with ⟨t, ht, rfl⟩
          by_cases hteq : (t.id == sess.id) = true
          · rw [if_pos hteq]
            intro habs
            have := (otpMatches_iff email code now' (markVerified now t)).1 habs
            simp [markVerified] at this
          · rw [if_neg hteq]
            intro habs
            have hkey : otpKey email code t = true := by
              have := (otpMatches_iff email code now' t).1 habs
              simp [otpKey, this.1, this.2.1, this.2.2.1]
            have hsessKey : otpKey email code sess = true := by
              have := (otpMatches_iff email code now sess).1 hsessMatch
              simp [otpKey, this.1, this.2.1, this.2.2.1]
            have := huniq t ht sess hsessMem hkey hsessKey
            exact hteq (beq_iff_eq.2 this)
        unfold verifyPasswordSetupOTP
        rw [hnone]

/-- A concrete stored OTP session used to witness the OTP theorem. -/
def c2session : OTPSession :=
  { id := 1, email := "guest@example.com", otpCode := "123456",
    purpose := "PASSWORD_SETUP", isVerified := false, expiresAt := 1000,
    verifiedAt := none }

/-- C2 witness: with a single fresh session stored, verifying its code
succeeds, and verifying the same code again afterwards fails. -/
theorem verifyPasswordSetupOTP_single_use_witness :
    (verifyPasswordSetupOTP [c2session] "guest@example.com" "123456" 500).success = true ∧
    (verifyPasswordSetupOTP
        (verifyPasswordSetupOTP [c2session] "guest@example.com" "123456" 500).sessions
        "guest@example.com" "123456" 600).success = false :=
  ⟨by decide,
    (verifyPasswordSetupOTP_single_use.2 [c2session] "guest@example.com" "123456" 500 600
        (by decide) (by decide)).2⟩

/- ## User administration (src/unnamed/part_002: createUser, deleteUser) -/

/-- One row of the User table (the fields these controllers read or write). -/
structure User where
  id : String
  email : String
  role : String
  isActive : Bool
  wardId : Option String
deriving DecidableEq

/-- The request body fields `createUser` validates. -/
structure CreateUserReq where
  fullName : String
  email : String
  role : String
deriving DecidableEq

/-- Result of `createUser`: HTTP status, the User table afterwards, and the
response message. -/
structure CreateUserResult where
  status : Nat
  users : List User
  message : String
deriving DecidableEq

/-- `createUser`: reject bad basic fields with 400; reject an email that
already belongs to an existing user with 400 and no change; otherwise insert
the new row (`emailOk` stands for the verification-email send succeeding - on
failure for officer/maintenance roles the controller deletes the row again and
answers 500, leaving the table as it was). -/
def createUser (users : List User) (req : CreateUserReq) (newId : String)
    (emailOk : Bool) : CreateUserResult :=
  if req.fullName.trim.length < 3 ∨ req.email = "" ∨ req.role = "" then
    { status := 400, users := users, message := "Validation failed" }
  else
    match users.find? (fun u => u.email == req.email) with
    | some _ =>
        { status := 400, users := users, message := "User already exists with this email" }
    | none =>
        if (req.role = "WARD_OFFICER" ∨ req.role = "MAINTENANCE_TEAM") ∧ emailOk = false then
          { status := 500, users := users,
            message := "Failed to send verification email. User creation cancelled." }
        else
          { status := 201,
            users := users ++ [{ id := newId, email := req.email, role := req.role,
                                 isActive := true, wardId := none }],
            message := "User created successfully" }

/-- C6: registering an email that already belongs to an existing user is
rejected: the table is unchanged, the status is 400, and (when the basic
field validation passes) the message is the duplicate-email error; moreover
`createUser` preserves uniqueness of emails, so at most one user per email
ever exists. -/
theorem createUser_duplicate_email_rejected :
    (∀ (users : List User) (req : CreateUserReq) (newId : String) (emailOk : Bool),
        (∃ u ∈ users, u.email = req.email) →
        (createUser users req newId emailOk).users = users ∧
        (createUser users req newId emailOk).status = 400 ∧
        (¬ (req.fullName.trim.length < 3 ∨ req.email = "" ∨ req.role = "") →
            (createUser users req newId emailOk).message =
              "User already exists with this email")) ∧
    (∀ (users : List User) (req : CreateUserReq) (newId : String) (emailOk : Bool),
        (users.map User.email).Nodup →
        ((createUser users req newId emailOk).users.map User.email).Nodup) := by
  constructor
  · rintro users req newId emailOk ⟨u, hu, hemail⟩
    unfold createUser
    by_cases hval : req.fullName.trim.length < 3 ∨ req.email = "" ∨ req.role = ""
    · rw [if_pos hval]
      exact ⟨rfl, rfl, fun h => absurd hval h⟩
    · rw [if_neg hval]
      cases hfind : users.find? (fun v => v.email == req.email) with
      | none =>
        have := List.find?_eq_none.1 hfind u hu
        exact absurd (beq_iff_eq.2 hemail) (by simpa using this)
      | some v => exact ⟨rfl, rfl, fun _ => rfl⟩
  · intro users req newId emailOk hnd
    unfold createUser
    by_cases hval : req.fullName.trim.length < 3 ∨ req.email = "" ∨ req.role = ""
    · rw [if_pos hval]
      exact hnd
    · rw [if_neg hval]
      cases hfind : users.find? (fun v => v.email == req.email) with
      | some v => exact hnd
      | none =>
        by_cases hrole : (req.role = "WARD_OFFICER" ∨ req.role = "MAINTENANCE_TEAM") ∧
            emailOk = false
        · rw [if_pos hrole]
          exact hnd
        · rw [if_neg hrole]
          have hnotin : req.email ∉ users.map User.email := by
            intro hmem
            rcases List.mem_map.1 hmem with ⟨u, hu, hue⟩
            have := List.find?_eq_none.1 hfind u hu
            exact this (beq_iff_eq.2 hue)
          rw [List.map_append]
          refine List.Nodup.append hnd (List.nodup_singleton _) ?_
          intro a ha ha'
          rcases List.mem_singleton.1 ha' with rfl
          exact hnotin ha

/-- An already-registered user, for the duplicate-email witness. -/
def c6user : User :=
  { id := "u1", email := "citizen1@example.com", role := "CITIZEN",
    isActive := true, wardId := none }

/-- A registration request reusing `c6user`'s email. -/
def c6req : CreateUserReq :=
  { fullName := "Jane Doe", email := "citizen1@example.com", role := "CITIZEN" }

/-- C6 witness: registering a second user with an existing email leaves the
table unchanged and answers 400. -/
theorem createUser_duplicate_email_rejected_witness :
    (createUser [c6user] c6req "u2" true).users = [c6user] ∧
    (createUser [c6user] c6req "u2" true).status = 400 :=
  ⟨(createUser_duplicate_email_rejected.1 [c6user] c6req "u2" true
      ⟨c6user, by decide, rfl⟩).1,
    (createUser_duplicate_email_rejected.1 [c6user] c6req "u2" true
      ⟨c6user, by decide, rfl⟩).2.1⟩

/-- The number of active administrators (the Prisma count `deleteUser` takes
before deactivating an administrator). -/
def activeAdminCount (users : List User) : Nat :=
  (users.filter (fun u => u.role == "ADMINISTRATOR" && u.isActive)).length

/-- The soft-delete update: set `isActive := false` on the row with the given
id, leave every other row alone. -/
def deactivateIfId (uid : String) (t : User) : User :=
  if t.id == uid then { t with isActive := false } else t

/-- Result of `deleteUser`: HTTP status and the User table afterwards. -/
structure DeleteUserResult where
  status : Nat
  users : List User
deriving DecidableEq

/-- `deleteUser`: 404 when the user does not exist; 400 (and no change) when
the target is an administrator and at most one administrator is active;
otherwise soft-delete by setting `isActive := false` - no row is ever
removed. -/
def deleteUser (users : List User) (uid : String) : DeleteUserResult :=
  match users.find? (fun u => u.id == uid) with
  | none => { status := 404, users := users }
  | some u =>
      if u.role = "ADMINISTRATOR" ∧ activeAdminCount users ≤ 1 then
        { status := 400, users := users }
      else
        { status := 200, users := users.map (deactivateIfId uid) }

/-- In a table whose ids are pairwise distinct, two members with the same id
are the same row. -/
theorem eq_of_mem_of_id_eq {users : List User}
    (hnd : (users.map (fun u => u.id)).Nodup) :
    ∀ t ∈ users, ∀ u ∈ users, t.id = u.id → t = u := by
  induction users with
  | nil => intro t ht; exact absurd ht (List.not_mem_nil t)
  | cons a l ih =>
    intro t ht u hu hid
    rw [List.map_cons] at hnd
    rcases List.mem_cons.1 ht with rfl | ht'
    · rcases List.mem_cons.1 hu with rfl | hu'
      · rfl
      · have hmem : u.id ∈ l.map (fun x => x.id) := List.mem_map_of_mem _ hu'
        rw [← hid] at hmem
        exact absurd hmem (List.nodup_cons.1 hnd).1
    · rcases List.mem_cons.1 hu with rfl | hu'
      · have hmem : t.id ∈ l.map (fun x => x.id) := List.mem_map_of_mem _ ht'
        rw [hid] at hmem
        exact absurd hmem (List.nodup_cons.1 hnd).1
      · exact ih (List.nodup_cons.1 hnd).2 t ht' u hu' hid

/-- Deactivating rows with an id that never belongs to an active
administrator does not change the active-administrator count. -/
theorem activeAdminCount_map_deactivate (users : List User) (uid : String)
    (h : ∀ t ∈ users, t.id = uid → (t.role == "ADMINISTRATOR" && t.isActive) = false) :
    activeAdminCount (users.map (deactivateIfId uid)) = activeAdminCount users := by
  unfold activeAdminCount
  induction users with
  | nil => rfl
  | cons a l ih =>
    have hl := ih (fun t ht => h t (List.mem_cons_of_mem a ht))
    rw [List.map_cons, List.filter_cons, List.filter_cons]
    by_cases ha : (a.id == uid) = true
    · have hfa : (a.role == "ADMINISTRATOR" && a.isActive) = false :=
        h a (List.mem_cons_self a l) (beq_iff_eq.1 ha)
      have h1 : deactivateIfId uid a = { a with isActive := false } := by
        simp [deactivateIfId, ha]
      rw [h1]
      simp only [hfa, Bool.and_false, if_false]
      simp [hl]
    · have h1 : deactivateIfId uid a = a := by
        simp [deactivateIfId, ha]
      rw [h1]
      by_cases hpa : (a.role == "ADMINISTRATOR" && a.isActive) = true
      · simp [hpa, hl]
      · simp [eq_false_of_ne_true hpa, hl]

/-- C9: `deleteUser` never removes a row (the id column is unchanged); when
the target is an administrator while at most one administrator is active it
answers 400 and leaves the table untouched; and consequently, for a table with
distinct ids, the active-administrator count never drops from one to zero. -/
theorem deleteUser_soft_delete_preserves_admins :
    (∀ (users : List User) (uid : String),
        (deleteUser users uid).users.map (fun u => u.id) = users.map (fun u => u.id)) ∧
    (∀ (users : List User) (uid : String) (u : User),
        users.find? (fun t => t.id == uid) = some u → u.role = "ADMINISTRATOR" →
        activeAdminCount users ≤ 1 →
        deleteUser users uid = { status := 400, users := users }) ∧
    (∀ (users : List User) (uid : String),
        (users.map (fun u => u.id)).Nodup → activeAdminCount users = 1 →
        activeAdminCount (deleteUser users uid).users = 1) := by
  refine ⟨?_, ?_, ?_⟩
  · intro users uid
    cases hfind : users.find? (fun u => u.id == uid) with
    | none => simp only [deleteUser, hfind]
    | some u =>
      simp only [deleteUser, hfind]
      by_cases hg : u.role = "ADMINISTRATOR" ∧ activeAdminCount users ≤ 1
      · rw [if_pos hg]
      · rw [if_neg hg]
        rw [List.map_map]
        apply List.map_congr_left
        intro t ht
        simp only [Function.comp, deactivateIfId]
        split <;> rfl
  · intro users uid u hfind hrole hcount
    simp only [deleteUser, hfind]
    rw [if_pos ⟨hrole, hcount⟩]
  · intro users uid hnd hone
    cases hfind : users.find? (fun t => t.id == uid) with
    | none => simp only [deleteUser, hfind]; exact hone
    | some u =>
      simp only [deleteUser, hfind]
      by_cases hg : u.role = "ADMINISTRATOR" ∧ activeAdminCount users ≤ 1
      · rw [if_pos hg]
        exact hone
      · rw [if_neg hg]
        have hle : activeAdminCount users ≤ 1 := by rw [hone]
        have hrole : u.role ≠ "ADMINISTRATOR" := fun hr => hg ⟨hr, hle⟩
        have humem : u ∈ users := List.mem_of_find?_eq_some hfind
        have huid : u.id = uid := beq_iff_eq.1 (by simpa using List.find?_some hfind)
        have hall : ∀ t ∈ users, t.id = uid →
            (t.role == "ADMINISTRATOR" && t.isActive) = false := by
          intro t ht htid
          have hteq : t = u := eq_of_mem_of_id_eq hnd t ht u humem (htid.trans huid.symm)
          rw [hteq]
          have : (u.role == "ADMINISTRATOR") = false := beq_eq_false_iff_ne.2 hrole
          simp [this]
        rw [activeAdminCount_map_deactivate users uid hall]
        exact hone

/-- The sole active administrator, for the last-administrator witness. -/
def c9admin : User :=
  { id := "a1", email := "admin@kochi.gov.in", role := "ADMINISTRATOR",
    isActive := true, wardId := none }

/-- C9 witness: deleting the only active administrator is refused with 400 and
the table is unchanged. -/
theorem deleteUser_soft_delete_preserves_admins_witness :
    deleteUser [c9admin] "a1" = { status := 400, users := [c9admin] } :=
  deleteUser_soft_delete_preserves_admins.2.1 [c9admin] "a1" c9admin (by decide) rfl
    (by decide)

/- ## Ward and sub-zone deletion (src/unnamed/part_002) -/

/-- One row of the Ward table (only the id matters to the delete checks). -/
structure Ward where
  id : String
deriving DecidableEq

/-- One row of the SubZone table: its id and the ward it belongs to. -/
structure SubZone where
  id : String
  wardId : String
deriving DecidableEq

/-- One row of the Complaint table (the foreign keys the delete checks
count). -/
structure Complaint where
  id : String
  wardId : String
  subZoneId : Option String
deriving DecidableEq

/-- The four tables the ward/sub-zone controllers touch. -/
structure Db where
  wards : List Ward
  subZones : List SubZone
  users : List User
  complaints : List Complaint
deriving DecidableEq

/-- Result of a ward/sub-zone delete: HTTP status and the database
afterwards. -/
structure WardApiResult where
  status : Nat
  db : Db
deriving DecidableEq

/-- `deleteWard`: 404 when the ward does not exist; 400 (no change) when any
user or any complaint references the ward; otherwise `prisma.ward.delete`
removes the ward.  The repository's documented Prisma schema declares
`SubZone.ward` with `onDelete: Cascade`
(docs/quick-complaint-form-end-to-end-flow.md), so deleting the ward also
deletes the sub-zones that reference it. -/
def deleteWard (db : Db) (wardId : String) : WardApiResult :=
  match db.wards.find? (fun w => w.id == wardId) with
  | none => { status := 404, db := db }
  | some _ =>
      if 0 < (db.users.filter (fun u => u.wardId == some wardId)).length then
        { status := 400, db := db }
      else if 0 < (db.complaints.filter (fun c => c.wardId == wardId)).length then
        { status := 400, db := db }
      else
        { status := 200,
          db := { db with
                  wards := db.wards.filter (fun w => !(w.id == wardId)),
                  subZones := db.subZones.filter (fun z => !(z.wardId == wardId)) } }

/-- `deleteSubZone`: 404 when the ward or the sub-zone does not exist; 400 (no
change) when the sub-zone belongs to a different ward or a complaint
references it; otherwise remove the sub-zone. -/
def deleteSubZone (db : Db) (wardId subZoneId : String) : WardApiResult :=
  match db.wards.find? (fun w => w.id == wardId) with
  | none => { status := 404, db := db }
  | some _ =>
      match db.subZones.find? (fun z => z.id == subZoneId) with
      | none => { status := 404, db := db }
      | some z =>
          if z.wardId ≠ wardId then { status := 400, db := db }
          else if 0 < (db.complaints.filter (fun c => c.subZoneId == some subZoneId)).length then
            { status := 400, db := db }
          else
            { status := 200,
              db := { db with
                      subZones := db.subZones.filter (fun z2 => !(z2.id == subZoneId)) } }

/-- Some ward with the given id exists. -/
def wardExistsIn (db : Db) (wid : String) : Prop :=
  ∃ w ∈ db.wards, w.id = wid

/-- Every complaint references an existing ward. -/
def complaintsReferenceWards (db : Db) : Prop :=
  ∀ c ∈ db.complaints, wardExistsIn db c.wardId

/-- Every sub-zone references an existing ward. -/
def subZonesReferenceWards (db : Db) : Prop :=
  ∀ z ∈ db.subZones, wardExistsIn db z.wardId

/-- An empty filter result means no member satisfies the predicate. -/
theorem not_length_pos_forall {α : Type} (l : List α) (p : α → Bool)
    (h : ¬ 0 < (l.filter p).length) : ∀ a ∈ l, p a = false := by
  intro a ha
  by_contra hpa
  have : a ∈ l.filter p := List.mem_filter.2 ⟨ha, by simpa using hpa⟩
  rw [List.length_eq_zero.1 (Nat.eq_zero_of_not_pos h)] at this
  exact absurd this (List.not_mem_nil a)

/-- On any non-200 answer, `deleteWard` leaves the database unchanged. -/
theorem deleteWard_not200 (db : Db) (wardId : String)
    (h : (deleteWard db wardId).status ≠ 200) : (deleteWard db wardId).db = db := by
  cases hfind : db.wards.find? (fun w => w.id == wardId) with
  | none => simp only [deleteWard, hfind]
  | some w =>
    simp only [deleteWard, hfind] at h ⊢
    by_cases hu : 0 < (db.users.filter (fun u => u.wardId == some wardId)).length
    · rw [if_pos hu]
    · rw [if_neg hu] at h ⊢
      by_cases hc : 0 < (db.complaints.filter (fun c => c.wardId == wardId)).length
      · rw [if_pos hc]
      · rw [if_neg hc] at h
        exact absurd rfl h

/-- On a 200 answer, `deleteWard` had no user or complaint referencing the
ward, and removed exactly the ward rows with that id together with
(cascade) the sub-zone rows referencing it. -/
theorem deleteWard_200 (db : Db) (wardId : String)
    (h : (deleteWard db wardId).status = 200) :
    (∀ u ∈ db.users, u.wardId ≠ some wardId) ∧
    (∀ c ∈ db.complaints, c.wardId ≠ wardId) ∧
    (deleteWard db wardId).db =
      { db with
        wards := db.wards.filter (fun w => !(w.id == wardId)),
        subZones := db.subZones.filter (fun z => !(z.wardId == wardId)) } := by
  cases hfind : db.wards.find? (fun w => w.id == wardId) with
  | none =>
    simp only [deleteWard, hfind] at h
    simp at h
  | some w =>
    simp only [deleteWard, hfind] at h ⊢
    by_cases hu : 0 < (db.users.filter (fun u => u.wardId == some wardId)).length
    · rw [if_pos hu] at h
      simp at h
    · rw [if_neg hu] at h ⊢
      by_cases hc : 0 < (db.complaints.filter (fun c => c.wardId == wardId)).length
      · rw [if_pos hc] at h
        simp at h
      · rw [if_neg hc]
        refine ⟨?_, ?_, rfl⟩
        · intro u hu' heq
          have := not_length_pos_forall _ _ hu u hu'
          rw [heq] at this
          simp at this
        · intro c hc' heq
          have := not_length_pos_forall _ _ hc c hc'
          rw [heq] at this
          simp at this

/-- On any non-200 answer, `deleteSubZone` leaves the database unchanged. -/
theorem deleteSubZone_not200 (db : Db) (wardId subZoneId : String)
    (h : (deleteSubZone db wardId subZoneId).status ≠ 200) :
    (deleteSubZone db wardId subZoneId).db = db := by
  cases hfw : db.wards.find? (fun w => w.id == wardId) with
  | none => simp only [deleteSubZone, hfw]
  | some w =>
    cases hfz : db.subZones.find? (fun z => z.id == subZoneId) with
    | none => simp only [deleteSubZone, hfw, hfz]
    | some z =>
      simp only [deleteSubZone, hfw, hfz] at h ⊢
      by_cases hzw : z.wardId ≠ wardId
      · rw [if_pos hzw]
      · rw [if_neg hzw] at h ⊢
        by_cases hc : 0 < (db.complaints.filter (fun c => c.subZoneId == some subZoneId)).length
        · rw [if_pos hc]
        · rw [if_neg hc] at h
          exact absurd rfl h

/-- On a 200 answer, `deleteSubZone` found a sub-zone with that id belonging
to the given ward, no complaint referenced it, and only sub-zone rows with
that id were removed. -/
theorem deleteSubZone_200 (db : Db) (wardId subZoneId : String)
    (h : (deleteSubZone db wardId subZoneId).status = 200) :
    (∃ z ∈ db.subZones, z.id = subZoneId ∧ z.wardId = wardId) ∧
    (∀ c ∈ db.complaints, c.subZoneId ≠ some subZoneId) ∧
    (deleteSubZone db wardId subZoneId).db =
      { db with subZones := db.subZones.filter (fun z2 => !(z2.id == subZoneId)) } := by
  cases hfw : db.wards.find? (fun w => w.id == wardId) with
  | none =>
    simp only [deleteSubZone, hfw] at h
    simp at h
  | some w =>
    cases hfz : db.subZones.find? (fun z => z.id == subZoneId) with
    | none =>
      simp only [deleteSubZone, hfw, hfz] at h
      simp at h
    | some z =>
      simp only [deleteSubZone, hfw, hfz] at h ⊢
      by_cases hzw : z.wardId ≠ wardId
      · rw [if_pos hzw] at h
        simp at h
      · rw [if_neg hzw] at h ⊢
        by_cases hc : 0 < (db.complaints.filter (fun c => c.subZoneId == some subZoneId)).length
        · rw [if_pos hc] at h
          simp at h
        · rw [if_neg hc]
          refine ⟨⟨z, List.mem_of_find?_eq_some hfz,
              beq_iff_eq.1 (by simpa using List.find?_some hfz), not_not.1 hzw⟩, ?_, rfl⟩
          intro c hc' heq
          have := not_length_pos_forall _ _ hc c hc'
          rw [heq] at this
          simp at this

/-- C5: `deleteWard` removes a ward only when no user and no complaint
references it (otherwise it answers 400 and changes nothing); `deleteSubZone`
removes a sub-zone only when it belongs to the given ward and no complaint
references it; and after any delete - successful or not - every remaining
SubZone and every remaining Complaint still references an existing Ward
(for `deleteWard` the schema's `onDelete: Cascade` removes the deleted ward's
sub-zones along with it). -/
theorem ward_subzone_delete_referential_integrity :
    ∀ (db : Db) (wardId subZoneId : String),
      ((deleteWard db wardId).status = 200 →
          (∀ u ∈ db.users, u.wardId ≠ some wardId) ∧
          (∀ c ∈ db.complaints, c.wardId ≠ wardId) ∧
          (deleteWard db wardId).db =
            { db with
              wards := db.wards.filter (fun w => !(w.id == wardId)),
              subZones := db.subZones.filter (fun z => !(z.wardId == wardId)) }) ∧
      (wardExistsIn db wardId →
          ((∃ u ∈ db.users, u.wardId = some wardId) ∨
            (∃ c ∈ db.complaints, c.wardId = wardId)) →
          (deleteWard db wardId).status = 400 ∧ (deleteWard db wardId).db = db) ∧
      ((deleteWard db wardId).status ≠ 200 → (deleteWard db wardId).db = db) ∧
      ((deleteSubZone db wardId subZoneId).status = 200 →
          (∃ z ∈ db.subZones, z.id = subZoneId ∧ z.wardId = wardId) ∧
          (∀ c ∈ db.complaints, c.subZoneId ≠ some subZoneId) ∧
          (deleteSubZone db wardId subZoneId).db =
            { db with subZones := db.subZones.filter (fun z2 => !(z2.id == subZoneId)) }) ∧
      ((deleteSubZone db wardId subZoneId).status ≠ 200 →
          (deleteSubZone db wardId subZoneId).db = db) ∧
      (subZonesReferenceWards db → subZonesReferenceWards (deleteWard db wardId).db) ∧
      (complaintsReferenceWards db → complaintsReferenceWards (deleteWard db wardId).db) ∧
      (complaintsReferenceWards db →
          complaintsReferenceWards (deleteSubZone db wardId subZoneId).db) ∧
      (subZonesReferenceWards db →
          subZonesReferenceWards (deleteSubZone db wardId subZoneId).db) := by
  intro db wardId subZoneId
  refine ⟨deleteWard_200 db wardId, ?_, deleteWard_not200 db wardId,
    deleteSubZone_200 db wardId subZoneId, deleteSubZone_not200 db wardId subZoneId,
    ?_, ?_, ?_, ?_⟩
  · rintro ⟨w, hw, hwid⟩ href
    have h400 : (deleteWard db wardId).status = 400 := by
      cases hfind : db.wards.find? (fun w2 => w2.id == wardId) with
      | none =>
        have := List.find?_eq_none.1 hfind w hw
        exact absurd (beq_iff_eq.2 hwid) this
      | some w2 =>
        simp only [deleteWard, hfind]
        by_cases hu : 0 < (db.users.filter (fun u => u.wardId == some wardId)).length
        · rw [if_pos hu]
        · rw [if_neg hu]
          rcases href with ⟨u, hu', huw⟩ | ⟨c, hc', hcw⟩
          · have := not_length_pos_forall _ _ hu u hu'
            rw [huw] at this
            simp at this
          · have hc : 0 < (db.complaints.filter (fun c2 => c2.wardId == wardId)).length := by
              by_contra hc
              have := not_length_pos_forall _ _ hc c hc'
              rw [hcw] at this
              simp at this
            rw [if_pos hc]
    exact ⟨h400, deleteWard_not200 db wardId (by rw [h400]; decide)⟩
  · intro href
    by_cases h200 : (deleteWard db wardId).status = 200
    · obtain ⟨-, -, heq⟩ := deleteWard_200 db wardId h200
      rw [heq]
      intro z hz
      obtain ⟨hzmem, hzkeep⟩ := List.mem_filter.1 hz
      have hzne : z.wardId ≠ wardId := by simpa using hzkeep
      obtain ⟨w, hw, hwid⟩ := href z hzmem
      have hwne : w.id ≠ wardId := by
        rw [hwid]
        exact hzne
      exact ⟨w, List.mem_filter.2 ⟨hw, by simp [hwne]⟩, hwid⟩
    · rw [deleteWard_not200 db wardId h200]
      exact href
  · intro href
    by_cases h200 : (deleteWard db wardId).status = 200
    · obtain ⟨-, hcomp, heq⟩ := deleteWard_200 db wardId h200
      rw [heq]
      intro c hc
      obtain ⟨w, hw, hwid⟩ := href c hc
      exact ⟨w, List.mem_filter.2 ⟨hw, by simp [hwid, hcomp c hc]⟩, hwid⟩
    · rw [deleteWard_not200 db wardId h200]
      exact href
  · intro href
    by_cases h200 : (deleteSubZone db wardId subZoneId).status = 200
    · obtain ⟨-, -, heq⟩ := deleteSubZone_200 db wardId subZoneId h200
      rw [heq]
      intro c hc
      exact href c hc
    · rw [deleteSubZone_not200 db wardId subZoneId h200]
      exact href
  · intro href
    by_cases h200 : (deleteSubZone db wardId subZoneId).status = 200
    · obtain ⟨-, -, heq⟩ := deleteSubZone_200 db wardId subZoneId h200
      rw [heq]
      intro z hz
      exact href z (List.mem_filter.1 hz).1
    · rw [deleteSubZone_not200 db wardId subZoneId h200]
      exact href

/-- A database whose only ward is referenced by one complaint. -/
def c5dbRef : Db :=
  { wards := [{ id := "w1" }], subZones := [],
    users := [],
    complaints := [{ id := "c1", wardId := "w1", subZoneId := none }] }

/-- C5 witness: deleting a ward that a complaint references answers 400 and
changes nothing. -/
theorem ward_subzone_delete_referential_integrity_witness :
    (deleteWard c5dbRef "w1").status = 400 ∧ (deleteWard c5dbRef "w1").db = c5dbRef :=
  (ward_subzone_delete_referential_integrity c5dbRef "w1" "z1").2.1
    ⟨{ id := "w1" }, by decide, rfl⟩
    (Or.inr ⟨{ id := "c1", wardId := "w1", subZoneId := none }, by decide, rfl⟩)

/- ## Redux locations cache (src/client/store/slices/dataSlice.ts) -/

/-- A cached value with the timestamp the reducer stamps on it. -/
structure CachedData (β : Type) where
  data : β
  timestamp : Nat
deriving DecidableEq

/-- A ward object as it arrives in the `setWardsWithSubZones` payload: its id
and, when the fetch included them, its `subZones` array (`none` models an
absent or non-array field, which the reducer's `Array.isArray` check
skips).  The sub-zone element type is abstract. -/
structure PayloadWard (α : Type) where
  id : String
  subZones : Option (List α)
deriving DecidableEq

/-- The `locations` part of the store: the cached ward list and the
`Record<wardId, CachedData<subZones[]>>` map (modelled as an association list
in insertion order, as JS object keys behave here). -/
structure LocationsState (α : Type) where
  wards : Option (CachedData (List (PayloadWard α)))
  subZones : List (String × CachedData (List α))
deriving DecidableEq

/-- JS object-key assignment `m[k] = v`: overwrite the entry if the key is
present, append it otherwise. -/
def setEntry {β : Type} (m : List (String × β)) (k : String) (v : β) :
    List (String × β) :=
  if m.any (fun p => p.1 == k) then m.map (fun p => if p.1 == k then (k, v) else p)
  else m ++ [(k, v)]

/-- JS object-key lookup `m[k]`: the value of the first entry with that key. -/
def lookupEntry {β : Type} : List (String × β) → String → Option β
  | [], _ => none
  | p :: m, k => if p.1 == k then some p.2 else lookupEntry m k

/-- The `hasSubZones` test of `setWardsWithSubZones`: the ward carries a
sub-zone array and it is non-empty. -/
def wardHasNonEmptySubZones {α : Type} (w : PayloadWard α) : Bool :=
  match w.subZones with
  | some l => !l.isEmpty
  | none => false

/-- One iteration of the rebuild loop: wards carrying a `subZones` array (even
an empty one) are written into the map, others are skipped. -/
def buildStep {α : Type} (now : Nat) (m : List (String × CachedData (List α)))
    (w : PayloadWard α) : List (String × CachedData (List α)) :=
  match w.subZones with
  | some l => setEntry m w.id ⟨l, now⟩
  | none => m

/-- The rebuilt sub-zones map: start from the fresh empty object and run the
payload's `forEach`. -/
def buildSubZonesMap {α : Type} (payload : List (PayloadWard α)) (now : Nat) :
    List (String × CachedData (List α)) :=
  payload.foldl (buildStep now) []

/-- `setWardsWithSubZones`: always replace the cached ward list; rebuild the
sub-zones map only when some payload ward actually carries a non-empty
`subZones` array, so that shallow fetches do not wipe the cache. -/
def setWardsWithSubZones {α : Type} (st : LocationsState α)
    (payload : List (PayloadWard α)) (now : Nat) : LocationsState α :=
  if payload.any wardHasNonEmptySubZones then
    { wards := some ⟨payload, now⟩, subZones := buildSubZonesMap payload now }
  else
    { st with wards := some ⟨payload, now⟩ }

/-- Looking up the key just written by `setEntry` yields the written value
(replacement case). -/
theorem lookupEntry_replace_self {β : Type} (m : List (String × β)) (k : String) (v : β)
    (hany : m.any (fun p => p.1 == k) = true) :
    lookupEntry (m.map (fun p => if p.1 == k then (k, v) else p)) k = some v := by
  induction m with
  | nil => simp at hany
  | cons a l ih =>
    rw [List.map_cons]
    by_cases ha : (a.1 == k) = true
    · rw [if_pos ha]
      simp [lookupEntry]
    · rw [if_neg ha]
      have ha' : (a.1 == k) = false := eq_false_of_ne_true ha
      simp only [List.any_cons, ha', Bool.false_or] at hany
      simp only [lookupEntry, ha', Bool.false_eq_true, if_false]
      exact ih hany

/-- Looking up a different key after a `setEntry` replacement is unchanged. -/
theorem lookupEntry_replace_ne {β : Type} (m : List (String × β)) (k k' : String) (v : β)
    (h : k' ≠ k) :
    lookupEntry (m.map (fun p => if p.1 == k then (k, v) else p)) k' = lookupEntry m k' := by
  induction m with
  | nil => rfl
  | cons a l ih =>
    rw [List.map_cons]
    by_cases ha : (a.1 == k) = true
    · rw [if_pos ha]
      have hknew : (k == k') = false := beq_eq_false_iff_ne.2 (fun he => h he.symm)
      have haold : (a.1 == k') = false := by
        rw [beq_iff_eq.1 ha]
        exact hknew
      simp only [lookupEntry, hknew, haold, Bool.false_eq_true, if_false]
      exact ih
    · rw [if_neg ha]
      by_cases ha' : (a.1 == k') = true
      · simp only [lookupEntry, ha', if_true, if_pos]
      · simp only [lookupEntry, eq_false_of_ne_true ha', Bool.false_eq_true, if_false]
        exact ih

/-- Looking up the key just appended by `setEntry` yields the appended value
(fresh-key case). -/
theorem lookupEntry_append_single_self {β : Type} (m : List (String × β)) (k : String)
    (v : β) (hnone : m.any (fun p => p.1 == k) = false) :
    lookupEntry (m ++ [(k, v)]) k = some v := by
  induction m with
  | nil => simp [lookupEntry]
  | cons a l ih =>
    simp only [List.any_cons, Bool.or_eq_false_iff] at hnone
    rw [List.cons_append]
    simp [lookupEntry, hnone.1, ih hnone.2]

/-- Looking up a different key after a fresh `setEntry` append is unchanged. -/
theorem lookupEntry_append_single_ne {β : Type} (m : List (String × β)) (k k' : String)
    (v : β) (h : k' ≠ k) :
    lookupEntry (m ++ [(k, v)]) k' = lookupEntry m k' := by
  induction m with
  | nil =>
    rw [List.nil_append]
    have hk : (k == k') = false := beq_eq_false_iff_ne.2 (fun he => h he.symm)
    simp [lookupEntry, hk]
  | cons a l ih =>
    rw [List.cons_append]
    by_cases ha : (a.1 == k') = true
    · simp [lookupEntry, ha]
    · simp [lookupEntry, eq_false_of_ne_true ha, ih]

/-- `setEntry` stores the value under its key. -/
theorem lookupEntry_setEntry_self {β : Type} (m : List (String × β)) (k : String) (v : β) :
    lookupEntry (setEntry m k v) k = some v := by
  unfold setEntry
  by_cases hany : m.any (fun p => p.1 == k) = true
  · rw [if_pos hany]
    exact lookupEntry_replace_self m k v hany
  · rw [if_neg hany]
    exact lookupEntry_append_single_self m k v (eq_false_of_ne_true hany)

/-- `setEntry` does not disturb other keys. -/
theorem lookupEntry_setEntry_ne {β : Type} (m : List (String × β)) (k k' : String)
    (v : β) (h : k' ≠ k) :
    lookupEntry (setEntry m k v) k' = lookupEntry m k' := by
  unfold setEntry
  by_cases hany : m.any (fun p => p.1 == k) = true
  · rw [if_pos hany]
    exact lookupEntry_replace_ne m k k' v h
  · rw [if_neg hany]
    exact lookupEntry_append_single_ne m k k' v h

/-- The rebuild loop leaves keys that no payload ward carries untouched. -/
theorem build_lookup_of_not_mem {α : Type} (now : Nat) (k : String) :
    ∀ (ws : List (PayloadWard α)) (m : List (String × CachedData (List α))),
      (∀ w ∈ ws, w.id ≠ k) →
      lookupEntry (ws.foldl (buildStep now) m) k = lookupEntry m k := by
  intro ws
  induction ws with
  | nil => intro m _; rfl
  | cons a rest ih =>
    intro m h
    rw [List.foldl_cons, ih _ (fun w hw => h w (List.mem_cons_of_mem a hw))]
    cases hsz : a.subZones with
    | none => simp only [buildStep, hsz]
    | some l =>
      simp only [buildStep, hsz]
      exact lookupEntry_setEntry_ne m a.id k ⟨l, now⟩
        (fun he => h a (List.mem_cons_self a rest) he.symm)

/-- When the payload ids are distinct, the rebuild loop maps each ward that
carries a `subZones` array to exactly that array. -/
theorem build_lookup_of_mem {α : Type} (now : Nat) (w : PayloadWard α) (l : List α)
    (hsz : w.subZones = some l) :
    ∀ (ws : List (PayloadWard α)) (m : List (String × CachedData (List α))),
      w ∈ ws → (ws.map (fun x => x.id)).Nodup →
      lookupEntry (ws.foldl (buildStep now) m) w.id = some ⟨l, now⟩ := by
  intro ws
  induction ws with
  | nil => intro m hmem _; exact absurd hmem (List.not_mem_nil w)
  | cons a rest ih =>
    intro m hmem hnd
    rw [List.map_cons, List.nodup_cons] at hnd
    rw [List.foldl_cons]
    rcases List.mem_cons.1 hmem with rfl | hmem'
    · have hrest : ∀ x ∈ rest, x.id ≠ w.id :=
        fun x hx he => hnd.1 (he ▸ List.mem_map_of_mem _ hx)
      rw [build_lookup_of_not_mem now w.id rest _ hrest]
      simp only [buildStep, hsz]
      exact lookupEntry_setEntry_self m w.id ⟨l, now⟩
    · exact ih _ hmem' hnd.2

/-- Every entry the rebuild loop produces comes from a payload ward carrying
that exact array, stamped with the rebuild time. -/
theorem build_lookup_inv {α : Type} (now : Nat) (k : String) (v : CachedData (List α)) :
    ∀ (ws : List (PayloadWard α)) (m : List (String × CachedData (List α))),
      lookupEntry (ws.foldl (buildStep now) m) k = some v →
      (∃ w ∈ ws, w.id = k ∧ w.subZones = some v.data ∧ v.timestamp = now) ∨
        lookupEntry m k = some v := by
  intro ws
  induction ws with
  | nil => intro m h; exact Or.inr h
  | cons a rest ih =>
    intro m h
    rw [List.foldl_cons] at h
    rcases ih _ h with ⟨w, hw, hrest⟩ | hm
    · exact Or.inl ⟨w, List.mem_cons_of_mem a hw, hrest⟩
    · cases hsz : a.subZones with
      | none =>
        simp only [buildStep, hsz] at hm
        exact Or.inr hm
      | some l =>
        simp only [buildStep, hsz] at hm
        by_cases hk : k = a.id
        · rw [hk, lookupEntry_setEntry_self] at hm
          have hv : (⟨l, now⟩ : CachedData (List α)) = v := Option.some.inj hm
          refine Or.inl ⟨a, List.mem_cons_self a rest, hk.symm, ?_, ?_⟩
          · rw [hsz, ← hv]
          · rw [← hv]
        · rw [lookupEntry_setEntry_ne m a.id k ⟨l, now⟩ hk] at hm
          exact Or.inr hm

/-- C10: when no payload ward carries a non-empty `subZones` array, the
reducer replaces only the cached ward list and leaves `locations.subZones`
exactly unchanged; when some ward does (and payload ids are distinct, as ward
ids are), the sub-zones map is rebuilt to associate each payload ward that
carries a `subZones` array with exactly that array, and nothing else. -/
theorem setWardsWithSubZones_cache_behavior {α : Type} :
    (∀ (st : LocationsState α) (payload : List (PayloadWard α)) (now : Nat),
        (∀ w ∈ payload, ∀ l, w.subZones = some l → l = []) →
        (setWardsWithSubZones st payload now).subZones = st.subZones ∧
        (setWardsWithSubZones st payload now).wards = some ⟨payload, now⟩) ∧
    (∀ (st : LocationsState α) (payload : List (PayloadWard α)) (now : Nat),
        (∃ w ∈ payload, ∃ l, w.subZones = some l ∧ l ≠ []) →
        (payload.map (fun w => w.id)).Nodup →
        (setWardsWithSubZones st payload now).wards = some ⟨payload, now⟩ ∧
        (∀ w ∈ payload, ∀ l, w.subZones = some l →
            lookupEntry (setWardsWithSubZones st payload now).subZones w.id =
              some ⟨l, now⟩) ∧
        (∀ (k : String) (v : CachedData (List α)),
            lookupEntry (setWardsWithSubZones st payload now).subZones k = some v →
            ∃ w ∈ payload, w.id = k ∧ w.subZones = some v.data ∧ v.timestamp = now)) := by
  constructor
  · intro st payload now h
    have hany : payload.any wardHasNonEmptySubZones = false := by
      apply List.any_eq_false.2
      intro w hw
      cases hszw : w.subZones with
      | none => simp [wardHasNonEmptySubZones, hszw]
      | some l =>
        have : l = [] := h w hw l hszw
        simp [wardHasNonEmptySubZones, hszw, this]
    unfold setWardsWithSubZones
    rw [if_neg (by simp [hany])]
    exact ⟨rfl, rfl⟩
  · intro st payload now hex hnd
    have hany : payload.any wardHasNonEmptySubZones = true := by
      rcases hex with ⟨w, hw, l, hsz, hne⟩
      apply List.any_eq_true.2
      refine ⟨w, hw, ?_⟩
      simp [wardHasNonEmptySubZones, hsz, hne]
    unfold setWardsWithSubZones
    rw [if_pos hany]
    refine ⟨rfl, ?_, ?_⟩
    · intro w hw l hsz
      exact build_lookup_of_mem now w l hsz payload [] hw hnd
    · intro k v hv
      rcases build_lookup_inv now k v payload [] hv with h | h
      · exact h
      · exact absurd h (by simp [lookupEntry])

/-- A store already holding one cached sub-zone list, for the frame witness. -/
def c10stored : LocationsState Nat :=
  { wards := none, subZones := [("w1", { data := [7], timestamp := 3 })] }

/-- C10 witness: a shallow payload (its ward has no `subZones` array) replaces
the ward list but leaves the cached sub-zone map untouched. -/
theorem setWardsWithSubZones_cache_behavior_witness :
    (setWardsWithSubZones c10stored [{ id := "w1", subZones := none }] 10).subZones =
      [("w1", { data := [7], timestamp := 3 })] ∧
    (setWardsWithSubZones c10stored [{ id := "w1", subZones := none }] 10).wards =
      some { data := [{ id := "w1", subZones := none }], timestamp := 10 } :=
  setWardsWithSubZones_cache_behavior.1 c10stored [{ id := "w1", subZones := none }] 10
    (by
      intro w hw l hl
      rcases List.mem_singleton.1 hw with rfl
      exact Option.noConfusion hl)

end FixSmartCMS
